import Mathlib

/-!
Verification development for the T-Pot honeypot log-analysis pipeline
(cowrie_analysis.py, santrypeer_analysis.py, tanner_analysis.py).

The scripts ingest line-delimited JSON honeypot logs, normalize them into
pandas DataFrames, enrich them with GeoIP country lookups and compute
Top-N / time-bucketed aggregates.  This file shallowly embeds those
pipelines:

* a raw input line is modelled as `Option Json`: `some j` when Python's
  `json.loads` succeeds with value `j`, `none` when it raises
  (`json.JSONDecodeError`);
* pandas cells are `Json` values, with `Json.null` standing for a missing
  value (Python `None` / NaN);
* `pd.to_datetime` on one cell is modelled by `coerceCell`
  (`errors="coerce"`) and `toDatetimeStrict` (the default `errors="raise"`),
  over a concrete ISO-8601 timestamp parser (a subset of the formats the
  library accepts; numeric cells are epoch instants, whose out-of-range
  overflow is not modelled);
* code paths that raise a Python exception past the per-line parse loops
  are modelled with `Except Unit`;
* the GeoIP reader is modelled as a function `String → Option String`,
  `none` meaning the lookup raises (address not found, private/reserved or
  malformed address).
-/

/-!  ## JSON values

JSON values as produced by `json.loads`: null/bool/number/string/
array/object.  Numbers are modelled as integers (the log fields the
scripts touch are strings or ints).  The type is given as a mutual
inductive (instead of nesting `List`) so that equality tests reduce in the
kernel. -/

mutual
/-- A JSON value (result of `json.loads`); `null` doubles as Python
`None`/NaN in DataFrame cells. -/
inductive Json where
  | null : Json
  | bool : Bool → Json
  | num : Int → Json
  | str : String → Json
  | arr : JArr → Json
  | obj : JObj → Json
/-- A JSON array. -/
inductive JArr where
  | nil : JArr
  | cons : Json → JArr → JArr
/-- A JSON object: ordered key/value bindings. -/
inductive JObj where
  | nil : JObj
  | cons : String → Json → JObj → JObj
end

mutual
/-- Structural equality test on JSON values. -/
def Json.beq : Json → Json → Bool
  | .null, .null => true
  | .bool a, .bool b => a == b
  | .num a, .num b => a == b
  | .str a, .str b => a == b
  | .arr a, .arr b => JArr.beq a b
  | .obj a, .obj b => JObj.beq a b
  | _, _ => false
/-- Structural equality test on JSON arrays. -/
def JArr.beq : JArr → JArr → Bool
  | .nil, .nil => true
  | .cons a as, .cons b bs => Json.beq a b && JArr.beq as bs
  | _, _ => false
/-- Structural equality test on JSON objects. -/
def JObj.beq : JObj → JObj → Bool
  | .nil, .nil => true
  | .cons k v t, .cons k' v' t' => k == k' && Json.beq v v' && JObj.beq t t'
  | _, _ => false
end

mutual
theorem beqJson_iff : ∀ (a b : Json), Json.beq a b = true ↔ a = b
  | a, b => by
    cases a <;> cases b <;> simp [Json.beq]
    case arr.arr x y => exact beqJArr_iff x y
    case obj.obj x y => exact beqJObj_iff x y
theorem beqJArr_iff : ∀ (a b : JArr), JArr.beq a b = true ↔ a = b
  | a, b => by
    cases a <;> cases b <;> simp [JArr.beq]
    case cons.cons x xs y ys =>
      rw [beqJson_iff, beqJArr_iff]
theorem beqJObj_iff : ∀ (a b : JObj), JObj.beq a b = true ↔ a = b
  | a, b => by
    cases a <;> cases b <;> simp [JObj.beq]
    case cons.cons k v t k' v' t' =>
      rw [beqJson_iff, beqJObj_iff, and_assoc]
end

deriving instance DecidableEq for Except

instance : DecidableEq Json := fun a b =>
  if h : Json.beq a b = true then isTrue ((beqJson_iff a b).mp h)
  else isFalse (fun he => h ((beqJson_iff a b).mpr he))

instance : DecidableEq JObj := fun a b =>
  if h : JObj.beq a b = true then isTrue ((beqJObj_iff a b).mp h)
  else isFalse (fun he => h ((beqJObj_iff a b).mpr he))

/-- Build a JSON object from a list of bindings (notation helper for
concrete inputs). -/
def JObj.ofList : List (String × Json) → JObj
  | [] => .nil
  | (k, v) :: t => .cons k v (JObj.ofList t)

/-- Object constructor from a binding list. -/
def Json.mkObj (l : List (String × Json)) : Json :=
  Json.obj (JObj.ofList l)

/-- Key lookup in a JSON object.  `json.loads` builds a Python dict in
which a duplicated key keeps its last binding, so the lookup prefers later
bindings. -/
def JObj.find : JObj → String → Option Json
  | .nil, _ => none
  | .cons k v t, key =>
    match JObj.find t key with
    | some r => some r
    | none => if k = key then some v else none

/-- `d.get(k)` on a parsed JSON object: the stored value, or `null`
(Python `None`) when the key is absent.  On a non-object this model
returns `null`; call sites guard on objects where Python would raise
`AttributeError` instead. -/
def jgetCell (j : Json) (k : String) : Json :=
  match j with
  | Json.obj kvs => (JObj.find kvs k).getD Json.null
  | _ => Json.null

/-- Whether the value is a JSON object (a Python dict). -/
def Json.isObj : Json → Bool
  | .obj _ => true
  | _ => false

/-- Whether the object binds the key. -/
def JObj.hasKey (o : JObj) (k : String) : Bool :=
  (JObj.find o k).isSome

/-- A cell that is not missing (pandas drops NaN/None cells in
`value_counts`, `dropna`, `nunique` and `groupby`). -/
def nonNull : Json → Bool
  | Json.null => false
  | _ => true

/-!  ## Timestamps

`pd.to_datetime` over one cell.  The string formats accepted by the model
are `YYYY-MM-DD` and `YYYY-MM-DDTHH:MM:SS` with an optional `Z` or
fractional-seconds suffix — a subset of what pandas parses, enough to
classify the concrete inputs appearing below.  A parsed instant is encoded
as a natural number that is strictly monotone in
(year, month, day, hour, minute, second) and from which the calendar-date
code and the hour are recovered by `/ 86400` and `% 86400 / 3600`. -/

/-- Decimal digit value of a character. -/
def digitVal (c : Char) : Option Nat :=
  if '0' ≤ c ∧ c ≤ '9' then some (c.toNat - 48) else none

/-- Two-digit decimal number. -/
def num2 (a b : Char) : Option Nat := do
  let x ← digitVal a
  let y ← digitVal b
  pure (10 * x + y)

/-- Four-digit decimal number. -/
def num4 (a b c d : Char) : Option Nat := do
  let x ← num2 a b
  let y ← num2 c d
  pure (100 * x + y)

/-- Encoding of a calendar instant; seconds-within-day occupy the low
`86400` range so that `/ 86400` is the date code and `% 86400 / 3600` the
hour. -/
def tsEncode (y mo d h mi s : Nat) : Nat :=
  ((((y * 13 + mo) * 32 + d) * 24 + h) * 60 + mi) * 60 + s

/-- Allowed suffix after `HH:MM:SS`: empty, `Z`, or fractional seconds
with an optional `Z`. -/
def tsTailOk : List Char → Bool
  | [] => true
  | ['Z'] => true
  | '.' :: rest =>
      let ds := rest.takeWhile Char.isDigit
      decide (ds ≠ []) &&
        (decide (rest.drop ds.length = []) || decide (rest.drop ds.length = ['Z']))
  | _ => false

/-- ISO-8601 timestamp parser on the character list. -/
def parseTsChars : List Char → Option Nat
  | y1 :: y2 :: y3 :: y4 :: '-' :: m1 :: m2 :: '-' :: d1 :: d2c :: rest => do
      let y ← num4 y1 y2 y3 y4
      let mo ← num2 m1 m2
      let d ← num2 d1 d2c
      if 1 ≤ mo ∧ mo ≤ 12 ∧ 1 ≤ d ∧ d ≤ 31 then
        match rest with
        | [] => some (tsEncode y mo d 0 0 0)
        | 'T' :: h1 :: h2 :: ':' :: mi1 :: mi2 :: ':' :: s1 :: s2 :: suf => do
            let h ← num2 h1 h2
            let mi ← num2 mi1 mi2
            let s ← num2 s1 s2
            if h ≤ 23 ∧ mi ≤ 59 ∧ s ≤ 59 ∧ tsTailOk suf = true then
              some (tsEncode y mo d h mi s)
            else none
        | _ => none
      else none
  | _ => none

/-- Timestamp parser on strings. -/
def parseTimestamp (s : String) : Option Nat :=
  parseTsChars s.data

/-- `pd.to_datetime(cell, errors="coerce")`: missing/unparseable cells
become NaT (`none`); numeric cells are epoch instants. -/
def coerceCell : Json → Option Nat
  | Json.null => none
  | Json.str s => parseTimestamp s
  | Json.num n => some n.toNat
  | _ => none

/-- `pd.to_datetime(cell)` with the default `errors="raise"`: missing
cells become NaT, but an unparseable string (or non-scalar cell) raises. -/
def toDatetimeStrict : Json → Except Unit (Option Nat)
  | Json.null => Except.ok none
  | Json.str s =>
      match parseTimestamp s with
      | some t => Except.ok (some t)
      | none => Except.error ()
  | Json.num n => Except.ok (some n.toNat)
  | _ => Except.error ()

/-- `ts.dt.date` as a date code. -/
def dateOf (t : Nat) : Nat := t / 86400

/-- `ts.dt.hour`. -/
def hourOf (t : Nat) : Nat := t % 86400 / 3600

/-!  ## Grouping, counting and sorting (the pandas aggregation model)

`Series.value_counts` hashes values in first-appearance order and sorts by
count descending; ties keep first-seen order (the stable tie-break that the
design mandates for deterministic output).  `groupby(col).size()` sorts
group keys ascending and emits only keys that occur. -/

/-- First-seen-order deduplication (`Series.unique`), with an accumulator
of already-emitted values. -/
def dedupFSAux [DecidableEq α] (seen : List α) : List α → List α
  | [] => []
  | x :: xs => if x ∈ seen then dedupFSAux seen xs else x :: dedupFSAux (x :: seen) xs

/-- Distinct values in order of first appearance. -/
def dedupFS [DecidableEq α] (l : List α) : List α := dedupFSAux [] l

/-- Number of occurrences of `a` in `l`. -/
def cntOf [DecidableEq α] (l : List α) (a : α) : Nat :=
  (l.filter (fun x => decide (x = a))).length

/-- Position of the first occurrence of `a` in `l` (length when absent). -/
def posIn [DecidableEq α] : List α → α → Nat
  | [], _ => 0
  | x :: t, a => if x = a then 0 else posIn t a + 1

/-- Stable insertion into a count-descending list: the inserted pair goes
in front of the first strictly smaller-or-equal count, so that earlier
pairs win ties. -/
def insertByCount (x : α × Nat) : List (α × Nat) → List (α × Nat)
  | [] => [x]
  | h :: t => if h.2 ≤ x.2 then x :: h :: t else h :: insertByCount x t

/-- Stable sort by count descending. -/
def sortByCountDesc : List (α × Nat) → List (α × Nat)
  | [] => []
  | x :: xs => insertByCount x (sortByCountDesc xs)

/-- Insertion into an ascending list of naturals. -/
def insertAsc (x : Nat) : List Nat → List Nat
  | [] => [x]
  | h :: t => if x ≤ h then x :: h :: t else h :: insertAsc x t

/-- Ascending sort of naturals. -/
def sortAsc : List Nat → List Nat
  | [] => []
  | x :: xs => insertAsc x (sortAsc xs)

/-- `Series.value_counts()`: drop missing cells, count each distinct value,
sort by count descending with first-seen tie-break. -/
def value_counts (cells : List Json) : List (Json × Nat) :=
  sortByCountDesc
    ((dedupFS (cells.filter nonNull)).map
      (fun k => (k, cntOf (cells.filter nonNull) k)))

/-- `Series.value_counts().head(n)`: the Top-N aggregate table. -/
def topN (cells : List Json) (n : Nat) : List (Json × Nat) :=
  (value_counts cells).take n

/-- `df.groupby(col).size()`: pairs `(bucket, count)` for the distinct
bucket values, in ascending bucket order. -/
def bucketedCount (buckets : List Nat) : List (Nat × Nat) :=
  (sortAsc (dedupFS buckets)).map (fun b => (b, cntOf buckets b))

/-- `Series.nunique()`: number of distinct non-missing values. -/
def nunique (cells : List Json) : Nat :=
  (dedupFS (cells.filter nonNull)).length

/-- Scan for the label of the maximal count (first occurrence wins). -/
def idxmaxGo (best : Json × Nat) : List (Json × Nat) → Json
  | [] => best.1
  | p :: t => if best.2 < p.2 then idxmaxGo p t else idxmaxGo best t

/-- `Series.idxmax()`: label of the maximal count; raises `ValueError` on
an empty series. -/
def idxmax : List (Json × Nat) → Except Unit Json
  | [] => Except.error ()
  | p :: t => Except.ok (idxmaxGo p t)

/-!  ## Family A — cowrie_analysis.py

The module-level loop reads each line with `json.loads` inside
`try/except Exception: continue`, and appends a flat row of `j.get(...)`
cells plus the filename day.  A non-dict JSON value raises
`AttributeError` at the first `.get`, so the line is rejected.  The rows
then become a DataFrame; `pd.to_datetime(..., errors="coerce")` plus
`dropna(subset=["timestamp"])` keep exactly the rows with a parseable
timestamp.  With zero appended rows `pd.DataFrame(rows)` has no columns
and the `df["timestamp"]` access raises `KeyError`, aborting the run. -/

/-- One appended cowrie row (pre-timestamp-conversion cells). -/
structure CowrieRow where
  day : String
  timestamp : Json
  eventid : Json
  src_ip : Json
  username : Json
  password : Json
  input : Json
  message : Json
deriving DecidableEq

/-- One cowrie record after timestamp conversion and `dropna`. -/
structure CowrieRecord where
  day : String
  timestamp : Nat
  eventid : Json
  src_ip : Json
  username : Json
  password : Json
  input : Json
  message : Json
deriving DecidableEq

/-- The `try` body of the cowrie parse loop on one decoded line: append a
flat row when the value is a dict, reject otherwise. -/
def cowrieRow (day : String) : Option Json → Option CowrieRow
  | some (Json.obj o) =>
      some ⟨day, jgetCell (Json.obj o) "timestamp", jgetCell (Json.obj o) "eventid",
        jgetCell (Json.obj o) "src_ip", jgetCell (Json.obj o) "username",
        jgetCell (Json.obj o) "password", jgetCell (Json.obj o) "input",
        jgetCell (Json.obj o) "message"⟩
  | _ => none

/-- Timestamp coercion and `dropna` on one row. -/
def cowrieFinish (r : CowrieRow) : Option CowrieRecord :=
  (coerceCell r.timestamp).map
    (fun t => ⟨r.day, t, r.eventid, r.src_ip, r.username, r.password, r.input, r.message⟩)

/-- The cowrie ingestion pipeline over the lines of one day file:
parse loop, DataFrame construction (which raises `KeyError` when no row
was appended), timestamp coercion, `dropna`. -/
def cowriePipeline (day : String) (lines : List (Option Json)) :
    Except Unit (List CowrieRecord) :=
  let rows := lines.filterMap (cowrieRow day)
  if rows.isEmpty then Except.error () else Except.ok (rows.filterMap cowrieFinish)

/-- Per-line normalization: the record a line contributes, if any. -/
def cowrieNormalize (day : String) (l : Option Json) : Option CowrieRecord :=
  (cowrieRow day l).bind cowrieFinish

/-- A line that survives: valid JSON, a dict, with a coercible timestamp
field. -/
def cowrieValid : Option Json → Bool
  | some (Json.obj o) => (coerceCell (jgetCell (Json.obj o) "timestamp")).isSome
  | _ => false

/-!  ## GeoIP enrichment

`reader` models `reader.country(ip).country.iso_code` /
`reader.country(ip).country.name`: `some label` on success, `none` when
the library raises (not found, private/reserved or malformed address).
The scripts apply the lookup helper to every row of the address column
(`df[...].apply`), so the pair returned by the `...Enrich` functions also
counts how many reader invocations a run performs. -/

/-- cowrie's `ip_to_country`: sentinel `"UNK"` on any lookup failure. -/
def ip_to_country (reader : String → Option String) : Json → String
  | Json.str s => (reader s).getD "UNK"
  | _ => "UNK"

/-- sentrypeer's `resolve_country`: sentinel `"unknown"` on any lookup
failure (including a missing address cell). -/
def resolve_country (reader : String → Option String) : Option String → String
  | some s => (reader s).getD "unknown"
  | none => "unknown"

/-- `df["src_ip"].apply(ip_to_country)` with an invocation counter. -/
def cowrieEnrich (reader : String → Option String) (cells : List Json) :
    List String × Nat :=
  cells.foldl (fun acc c => (acc.1 ++ [ip_to_country reader c], acc.2 + 1)) ([], 0)

/-- `df["src_ip"].apply(lambda ip: resolve_country(ip, reader))` with an
invocation counter. -/
def spEnrich (reader : String → Option String) (cells : List (Option String)) :
    List String × Nat :=
  cells.foldl (fun acc c => (acc.1 ++ [resolve_country reader c], acc.2 + 1)) ([], 0)

/-- cowrie's GeoIP block: guarded by `os.path.exists(GEOIP_DB)`; when the
database file is absent the block is skipped (no country column), the run
continues. -/
def cowrieGeoStage (dbExists : Bool) (reader : String → Option String)
    (cells : List Json) : Option (List String) :=
  if dbExists then some (cowrieEnrich reader cells).1 else none

/-- sentrypeer's GeoIP step: `geoip2.database.Reader(GEOIP_DB)` is called
unconditionally and raises `FileNotFoundError` when the database file is
absent, aborting `main`. -/
def sentrypeerGeoStage (dbExists : Bool) (reader : String → Option String)
    (cells : List (Option String)) : Except Unit (List String) :=
  if dbExists then Except.ok (spEnrich reader cells).1 else Except.error ()

/-!  ## Family B — santrypeer_analysis.py

`load_sentrypeer_logs` keeps every line `json.loads` accepts (any JSON
value) and builds `pd.DataFrame(records)`.  `main` then splits the
`source_ip` column with `.str.split(":", expand=True)` — on every colon,
not the last — and assigns the result to exactly two columns, converts
`event_timestamp` with `pd.to_datetime` (default `errors="raise"`, and no
`dropna`), and derives the date.  Paths that raise in pandas are modelled
as `Except.error ()`: an empty record list or a missing column
(`KeyError`), a record list mixing dicts and scalars (DataFrame
construction), a split of width other than two (`ValueError: Columns must
be same length as key`), an unparseable timestamp (`to_datetime`). -/

/-- Python `str.split(sep)` on a character list. -/
def splitChars (sep : Char) : List Char → List (List Char)
  | [] => [[]]
  | c :: rest =>
    match splitChars sep rest with
    | [] => [[]]
    | g :: gs => if c = sep then [] :: g :: gs else (c :: g) :: gs

/-- Python `str.split(sep)` on strings. -/
def pySplit (sep : Char) (s : String) : List String :=
  (splitChars sep s.data).map (fun cs => String.mk cs)

/-- `.str.split(":")` on one cell: string cells split, non-strings give a
missing row. -/
def splitRow (c : Json) : Option (List String) :=
  match c with
  | Json.str s => some (pySplit ':' s)
  | _ => none

/-- Column width of `.str.split(":", expand=True)`: the maximal number of
parts over the non-missing cells (one column when there are none). -/
def spWidth (cells : List Json) : Nat :=
  (cells.filterMap (fun c => (splitRow c).map List.length)).foldl max 1

/-- One expanded row under a two-column split frame. -/
def row2 (c : Json) : Option String × Option String :=
  match splitRow c with
  | some [a] => (some a, none)
  | some [a, b] => (some a, some b)
  | _ => (none, none)

/-- `df[["src_ip", "src_port"]] = df["source_ip"].str.split(":",
expand=True)`: succeeds only when the expanded frame has exactly the two
assigned columns. -/
def spSplitStage (cells : List Json) :
    Except Unit (List (Option String × Option String)) :=
  if spWidth cells = 2 then Except.ok (cells.map row2) else Except.error ()

/-- A sentrypeer record after the split and timestamp conversion. -/
structure SPRecord where
  src_ip : Option String
  src_port : Option String
  event_timestamp : Option Nat
  date : Option Nat
deriving DecidableEq

/-- `load_sentrypeer_logs`: keep every decodable line
(`except json.JSONDecodeError: continue`). -/
def sentrypeerLoad (lines : List (Option Json)) : List Json :=
  lines.filterMap id

/-- Whether every record is a dict. -/
def allObj (records : List Json) : Bool :=
  records.all Json.isObj

/-- Whether some record binds the column key (otherwise the column access
raises `KeyError`). -/
def someHasKey (records : List Json) (k : String) : Bool :=
  records.any (fun r =>
    match r with
    | Json.obj o => o.hasKey k
    | _ => false)

/-- sentrypeer's `main` through the record-store construction
(lines 47–55 of the script): load, DataFrame, source split, strict
timestamp conversion, date derivation. -/
def sentrypeerNormalize (lines : List (Option Json)) :
    Except Unit (List SPRecord) :=
  let records := sentrypeerLoad lines
  if records.isEmpty then Except.error ()
  else if allObj records then
    if someHasKey records "source_ip" then
      match spSplitStage (records.map (fun r => jgetCell r "source_ip")) with
      | Except.error _ => Except.error ()
      | Except.ok split =>
        if someHasKey records "event_timestamp" then
          match (records.map (fun r => jgetCell r "event_timestamp")).mapM toDatetimeStrict with
          | Except.error _ => Except.error ()
          | Except.ok ts =>
              Except.ok ((List.zip split ts).map
                (fun p => ⟨p.1.1, p.1.2, p.2, p.2.map dateOf⟩))
        else Except.error ()
    else Except.error ()
  else Except.error ()

/-!  ## Family C — tanner_analysis.py

The parse loop builds nested-field rows inside a bare `try/except`: any
`AttributeError` from `.get` on a non-dict intermediate value rejects the
whole line.  `d.get("peer", {}).get("ip")` defaults the missing leaf to
`None`, while the user-agent and detection chains default to `"N/A"`.
Timestamp handling mirrors cowrie (`errors="coerce"` + `dropna`), then
`date` and `hour` are derived. -/

/-- `v.get(k, dflt)`: raises (`AttributeError`) unless `v` is a dict. -/
def pyGet (v : Json) (k : String) (dflt : Json) : Except Unit Json :=
  match v with
  | Json.obj o => Except.ok ((JObj.find o k).getD dflt)
  | _ => Except.error ()

/-- `d.get("peer", {}).get("ip")`. -/
def extractIp (d : Json) : Except Unit Json := do
  let peer ← pyGet d "peer" (Json.mkObj [])
  pyGet peer "ip" Json.null

/-- `d.get("headers", {}).get("user-agent", "N/A")`. -/
def extractUA (d : Json) : Except Unit Json := do
  let hs ← pyGet d "headers" (Json.mkObj [])
  pyGet hs "user-agent" (Json.str "N/A")

/-- `d.get("response_msg", {}).get("response", {}).get("message",
{}).get("detection", {}).get("name", "N/A")`. -/
def extractDetection (d : Json) : Except Unit Json := do
  let rm ← pyGet d "response_msg" (Json.mkObj [])
  let resp ← pyGet rm "response" (Json.mkObj [])
  let msg ← pyGet resp "message" (Json.mkObj [])
  let det ← pyGet msg "detection" (Json.mkObj [])
  pyGet det "name" (Json.str "N/A")

/-- One appended tanner row (pre-timestamp-conversion cells). -/
structure TannerRow where
  timestamp : Json
  ip : Json
  method : Json
  path : Json
  status : Json
  user_agent : Json
  detection : Json
deriving DecidableEq

/-- One tanner record after timestamp conversion, `dropna` and the
derived `date`/`hour` columns. -/
structure TannerRecord where
  timestamp : Nat
  ip : Json
  method : Json
  path : Json
  status : Json
  user_agent : Json
  detection : Json
  date : Nat
  hour : Nat
deriving DecidableEq

/-- The `try` body of the tanner parse loop on one decoded value. -/
def tannerRowE (d : Json) : Except Unit TannerRow :=
  match d with
  | Json.obj o => do
      let ip ← extractIp (Json.obj o)
      let ua ← extractUA (Json.obj o)
      let det ← extractDetection (Json.obj o)
      Except.ok ⟨jgetCell (Json.obj o) "timestamp", ip,
        jgetCell (Json.obj o) "method", jgetCell (Json.obj o) "path",
        jgetCell (Json.obj o) "status", ua, det⟩
  | _ => Except.error ()

/-- Timestamp coercion, `dropna`, and derived columns on one row. -/
def tannerFinish (r : TannerRow) : Option TannerRecord :=
  (coerceCell r.timestamp).map
    (fun t => ⟨t, r.ip, r.method, r.path, r.status, r.user_agent, r.detection,
      dateOf t, hourOf t⟩)

/-- Per-line normalization for tanner. -/
def tannerNormalize (l : Option Json) : Option TannerRecord :=
  (l.bind (fun d => (tannerRowE d).toOption)).bind tannerFinish

/-- The tanner ingestion pipeline (parse loop, DataFrame — `KeyError`
when no row was appended — coercion, `dropna`, derived columns). -/
def tannerPipeline (lines : List (Option Json)) :
    Except Unit (List TannerRecord) :=
  let rows := lines.filterMap (fun l => l.bind (fun d => (tannerRowE d).toOption))
  if rows.isEmpty then Except.error () else Except.ok (rows.filterMap tannerFinish)

/-- A line the tanner adapter is required (by the design contract) to
reject: invalid JSON, a non-object value, or a missing/unparseable
timestamp. -/
def tannerBad (l : Option Json) : Bool :=
  match l with
  | some (Json.obj o) => (coerceCell (jgetCell (Json.obj o) "timestamp")).isNone
  | _ => true

/-- The summary dict of tanner_analysis.py: `idxmax` over the ip and path
frequency tables raises `ValueError` when the tables are empty. -/
def tannerSummary (records : List TannerRecord) :
    Except Unit (Nat × Nat × Nat × Json × Json) :=
  match idxmax (value_counts (records.map TannerRecord.ip)),
      idxmax (value_counts (records.map TannerRecord.path)) with
  | Except.ok a, Except.ok b =>
      Except.ok (records.length, nunique (records.map TannerRecord.ip),
        nunique (records.map TannerRecord.path), a, b)
  | _, _ => Except.error ()

/-- The tanner run from raw lines to the summary row. -/
def tannerRun (lines : List (Option Json)) :
    Except Unit (Nat × Nat × Nat × Json × Json) :=
  (tannerPipeline lines).bind tannerSummary

/-- `reader.city(ip).country.name` inside `try/except: continue`: a
successful lookup contributes a country, a failure contributes nothing. -/
def resolveIp (reader : String → Option String) : Json → Option Json
  | Json.str s => (reader s).map Json.str
  | _ => none

/-- tanner's country aggregate: one lookup per distinct non-missing
address (`df["ip"].dropna().unique()`), failures skipped, then a Top-10
frequency table over the resolved countries. -/
def tannerCountries (reader : String → Option String) (cells : List Json) :
    List (Json × Nat) :=
  (value_counts ((dedupFS (cells.filter nonNull)).filterMap (resolveIp reader))).take 10

/-!  ## Concrete inputs used by counterexamples and witnesses -/

/-- A sentrypeer batch whose single record carries an unparseable
`event_timestamp`. -/
def spBadTsInput : List (Option Json) :=
  [some (Json.mkObj [("source_ip", Json.str "1.2.3.4:5060"),
    ("event_timestamp", Json.str "not-a-date")])]

/-- A sentrypeer batch whose second record has no `event_timestamp`
field. -/
def spMissingTsInput : List (Option Json) :=
  [some (Json.mkObj [("source_ip", Json.str "1.2.3.4:5060"),
    ("event_timestamp", Json.str "2024-01-02T03:04:05")]),
   some (Json.mkObj [("source_ip", Json.str "9.9.9.9:1")])]

/-- A sentrypeer batch whose `source_ip` holds two colons. -/
def spTwoColonInput : List (Option Json) :=
  [some (Json.mkObj [("source_ip", Json.str "2a00:1:2"),
    ("event_timestamp", Json.str "2024-01-02T03:04:05")])]

/-- A sentrypeer batch mixing a one-colon and a no-colon `source_ip`. -/
def spNoColonInput : List (Option Json) :=
  [some (Json.mkObj [("source_ip", Json.str "1.2.3.4:5060"),
    ("event_timestamp", Json.str "2024-01-02T03:04:05")]),
   some (Json.mkObj [("source_ip", Json.str "8.8.8.8"),
    ("event_timestamp", Json.str "2024-01-02T03:04:05")])]

/-- A tanner line with a valid timestamp and no nested levels at all. -/
def tanFlatLine : Option Json :=
  some (Json.mkObj [("timestamp", Json.str "2024-01-02T03:04:05")])

/-- A tanner line that parses as an object but carries an unparseable
timestamp: it is dropped by `dropna`, leaving an empty record store. -/
def tanBadTsLine : Option Json :=
  some (Json.mkObj [("timestamp", Json.str "bad")])

/-- A cowrie line with a valid timestamp. -/
def cowrieGoodLine : Option Json :=
  some (Json.mkObj [("timestamp", Json.str "2024-01-02T03:04:05"),
    ("eventid", Json.str "cowrie.login.failed"), ("src_ip", Json.str "1.2.3.4")])

/-- A concrete day tag for cowrie runs. -/
def dayA : String := "07"

/-- A reader test double that resolves every address to `"DE"`. -/
def readerDE : String → Option String := fun _ => some "DE"

/-- A reader test double whose every lookup fails. -/
def readerFail : String → Option String := fun _ => none

/-- A reader test double resolving two addresses to the same country. -/
def readerFR : String → Option String := fun s =>
  if s = "1.1.1.1" ∨ s = "2.2.2.2" then some "FR" else none

/-- Address column with one duplicated address. -/
def cellsFR : List Json :=
  [Json.str "1.1.1.1", Json.str "1.1.1.1", Json.str "2.2.2.2"]

/-!  ## Lemmas: deduplication, counting, positions -/

theorem mem_dedupFSAux [DecidableEq α] (a : α) :
    ∀ (l seen : List α), a ∈ dedupFSAux seen l ↔ a ∈ l ∧ a ∉ seen := by
  intro l
  induction l with
  | nil => intro seen; simp [dedupFSAux]
  | cons x xs ih =>
    intro seen
    by_cases hx : x ∈ seen
    · rw [dedupFSAux, if_pos hx, ih]
      constructor
      · rintro ⟨h1, h2⟩; exact ⟨List.mem_cons_of_mem _ h1, h2⟩
      · rintro ⟨h1, h2⟩
        rcases List.mem_cons.mp h1 with rfl | h1
        · exact absurd hx h2
        · exact ⟨h1, h2⟩
    · rw [dedupFSAux, if_neg hx]
      by_cases hax : a = x
      · subst hax
        simp [List.mem_cons, hx]
      · simp only [List.mem_cons, ih, List.mem_cons]
        constructor
        · rintro (rfl | ⟨h1, h2⟩)
          · exact absurd rfl hax
          · exact ⟨Or.inr h1, fun hs => h2 (Or.inr hs)⟩
        · rintro ⟨rfl | h1, h2⟩
          · exact absurd rfl hax
          · exact Or.inr ⟨h1, fun hs => h2 (by cases hs with
              | inl he => exact absurd he hax
              | inr hs => exact hs)⟩

theorem mem_dedupFS [DecidableEq α] (a : α) (l : List α) :
    a ∈ dedupFS l ↔ a ∈ l := by
  rw [dedupFS, mem_dedupFSAux]
  simp

theorem nodup_dedupFSAux [DecidableEq α] :
    ∀ (l seen : List α), (dedupFSAux seen l).Nodup := by
  intro l
  induction l with
  | nil => intro seen; simp [dedupFSAux]
  | cons x xs ih =>
    intro seen
    rw [dedupFSAux]
    split
    · exact ih seen
    · refine List.nodup_cons.mpr ⟨?_, ih (x :: seen)⟩
      intro hmem
      exact ((mem_dedupFSAux x xs (x :: seen)).mp hmem).2 (List.mem_cons_self x seen)

theorem nodup_dedupFS [DecidableEq α] (l : List α) : (dedupFS l).Nodup :=
  nodup_dedupFSAux l []

theorem posIn_cons_ne [DecidableEq α] {x a : α} (t : List α) (h : x ≠ a) :
    posIn (x :: t) a = posIn t a + 1 := by
  simp [posIn, h]

theorem pairwise_posIn_of_nodup [DecidableEq α] :
    ∀ (l : List α), l.Nodup → l.Pairwise (fun a b => posIn l a < posIn l b) := by
  intro l
  induction l with
  | nil => intro _; exact List.Pairwise.nil
  | cons x t ih =>
    intro hn
    rcases List.nodup_cons.mp hn with ⟨hx, ht⟩
    refine List.pairwise_cons.mpr ⟨?_, ?_⟩
    · intro b hb
      have hbx : x ≠ b := fun he => hx (he ▸ hb)
      rw [posIn_cons_ne t hbx]
      simp [posIn]
    · refine (ih ht).imp_of_mem ?_
      intro a b ha hb hab
      have hxa : x ≠ a := fun he => hx (he ▸ ha)
      have hxb : x ≠ b := fun he => hx (he ▸ hb)
      rw [posIn_cons_ne t hxa, posIn_cons_ne t hxb]
      omega

theorem cntOf_pos_iff [DecidableEq α] (l : List α) (a : α) :
    0 < cntOf l a ↔ a ∈ l := by
  induction l with
  | nil => simp [cntOf]
  | cons x t ih =>
    by_cases hxa : x = a
    · subst hxa; simp [cntOf, List.filter_cons]
    · simp [cntOf, List.filter_cons, hxa, List.mem_cons]
      rw [← cntOf, ih]
      constructor
      · exact Or.inr
      · rintro (he | h)
        · exact absurd he.symm hxa
        · exact h

theorem cntOf_cons [DecidableEq α] (x : α) (t : List α) (a : α) :
    cntOf (x :: t) a = (if x = a then 1 else 0) + cntOf t a := by
  by_cases h : x = a <;> simp [cntOf, List.filter_cons, h, Nat.add_comm]

theorem cntOf_filterMap [DecidableEq β] (f : α → Option β) (y : β) :
    ∀ (l : List α),
      cntOf (l.filterMap f) y = (l.filter (fun x => decide (f x = some y))).length := by
  intro l
  induction l with
  | nil => simp [cntOf]
  | cons x t ih =>
    rw [List.filter_cons]
    cases hfx : f x with
    | none =>
      rw [List.filterMap_cons_none hfx]
      simp [hfx, ih]
    | some b =>
      rw [List.filterMap_cons_some hfx, cntOf_cons]
      by_cases hby : b = y
      · simp [hfx, hby, ih, Nat.add_comm]
      · simp [hfx, hby, ih]

/-!  ## Lemmas: the stable count-descending sort -/

/-- The tie-break order of an aggregate table relative to the first-seen
key list `F`: strictly larger count first, equal counts in first-seen key
order. -/
def tieRel (F : List α) [DecidableEq α] (a b : α × Nat) : Prop :=
  b.2 < a.2 ∨ (a.2 = b.2 ∧ posIn F a.1 < posIn F b.1)

theorem insertByCount_perm (x : α × Nat) :
    ∀ (l : List (α × Nat)), (insertByCount x l).Perm (x :: l) := by
  intro l
  induction l with
  | nil => exact List.Perm.refl _
  | cons h t ih =>
    rw [insertByCount]
    split
    · exact List.Perm.refl _
    · exact (ih.cons h).trans (List.Perm.swap x h t)

theorem sortByCountDesc_perm :
    ∀ (l : List (α × Nat)), (sortByCountDesc l).Perm l := by
  intro l
  induction l with
  | nil => exact List.Perm.refl _
  | cons x xs ih =>
    exact (insertByCount_perm x (sortByCountDesc xs)).trans (ih.cons x)

theorem mem_insertByCount {b x : α × Nat} {l : List (α × Nat)} :
    b ∈ insertByCount x l ↔ b = x ∨ b ∈ l := by
  rw [(insertByCount_perm x l).mem_iff, List.mem_cons]

theorem insertByCount_pairwise [DecidableEq α] (F : List α) (x : α × Nat) :
    ∀ (l : List (α × Nat)), l.Pairwise (tieRel F) →
      (∀ b ∈ l, x.2 = b.2 → posIn F x.1 < posIn F b.1) →
      (insertByCount x l).Pairwise (tieRel F) := by
  intro l
  induction l with
  | nil => intro _ _; simp [insertByCount, List.pairwise_cons]
  | cons h t ih =>
    intro hp htie
    rcases List.pairwise_cons.mp hp with ⟨hh, ht⟩
    rw [insertByCount]
    split
    · rename_i hle
      refine List.pairwise_cons.mpr ⟨?_, hp⟩
      intro b hb
      rcases List.mem_cons.mp hb with he0 | hbt
      · by_cases he : x.2 = b.2
        · exact Or.inr ⟨he, htie b hb he⟩
        · exact Or.inl (lt_of_le_of_ne (he0 ▸ hle) (fun hc => he hc.symm))
      · rcases hh b hbt with hlt | ⟨he, hpos⟩
        · exact Or.inl (lt_of_lt_of_le hlt hle)
        · by_cases hxe : x.2 = b.2
          · exact Or.inr ⟨hxe, htie b hb hxe⟩
          · exact Or.inl (lt_of_le_of_ne (he ▸ hle) (fun hc => hxe hc.symm))
    · rename_i hgt
      have hhx : x.2 < h.2 := Nat.lt_of_not_le hgt
      refine List.pairwise_cons.mpr ⟨?_, ?_⟩
      · intro b hb
        rcases mem_insertByCount.mp hb with rfl | hbt
        · exact Or.inl hhx
        · exact hh b hbt
      · exact ih ht (fun b hb => htie b (List.mem_cons_of_mem h hb))

theorem sortByCountDesc_pairwise [DecidableEq α] (F : List α) :
    ∀ (l : List (α × Nat)),
      l.Pairwise (fun a b => posIn F a.1 < posIn F b.1) →
      (sortByCountDesc l).Pairwise (tieRel F) := by
  intro l
  induction l with
  | nil => intro _; exact List.Pairwise.nil
  | cons x xs ih =>
    intro hp
    rcases List.pairwise_cons.mp hp with ⟨hx, hxs⟩
    refine insertByCount_pairwise F x (sortByCountDesc xs) (ih hxs) ?_
    intro b hb _
    exact hx b ((sortByCountDesc_perm xs).mem_iff.mp hb)

/-!  ## Lemmas: the ascending bucket sort -/

theorem insertAsc_perm (x : Nat) :
    ∀ (l : List Nat), (insertAsc x l).Perm (x :: l) := by
  intro l
  induction l with
  | nil => exact List.Perm.refl _
  | cons h t ih =>
    rw [insertAsc]
    split
    · exact List.Perm.refl _
    · exact (ih.cons h).trans (List.Perm.swap x h t)

theorem sortAsc_perm : ∀ (l : List Nat), (sortAsc l).Perm l := by
  intro l
  induction l with
  | nil => exact List.Perm.refl _
  | cons x xs ih =>
    exact (insertAsc_perm x (sortAsc xs)).trans (ih.cons x)

theorem insertAsc_pairwise (x : Nat) :
    ∀ (l : List Nat), l.Pairwise (· ≤ ·) → (insertAsc x l).Pairwise (· ≤ ·) := by
  intro l
  induction l with
  | nil => intro _; simp [insertAsc, List.pairwise_cons]
  | cons h t ih =>
    intro hp
    rcases List.pairwise_cons.mp hp with ⟨hh, ht⟩
    rw [insertAsc]
    split
    · rename_i hle
      refine List.pairwise_cons.mpr ⟨?_, hp⟩
      intro b hb
      rcases List.mem_cons.mp hb with rfl | hbt
      · exact hle
      · exact le_trans hle (hh b hbt)
    · rename_i hgt
      refine List.pairwise_cons.mpr ⟨?_, ih ht⟩
      intro b hb
      rcases List.mem_cons.mp ((insertAsc_perm x t).mem_iff.mp hb) with he0 | hbt
      · exact he0 ▸ Nat.le_of_lt (Nat.lt_of_not_le hgt)
      · exact hh b hbt

theorem sortAsc_pairwise : ∀ (l : List Nat), (sortAsc l).Pairwise (· ≤ ·) := by
  intro l
  induction l with
  | nil => exact List.Pairwise.nil
  | cons x xs ih => exact insertAsc_pairwise x (sortAsc xs) ih

/-!  ## Lemmas: `value_counts` -/

theorem mem_value_counts {cells : List Json} {p : Json × Nat} :
    p ∈ value_counts cells →
      p.2 = cntOf (cells.filter nonNull) p.1
        ∧ p.1 ∈ dedupFS (cells.filter nonNull) := by
  intro hp
  have hmem : p ∈ (dedupFS (cells.filter nonNull)).map
      (fun k => (k, cntOf (cells.filter nonNull) k)) :=
    (sortByCountDesc_perm _).mem_iff.mp hp
  rcases List.mem_map.mp hmem with ⟨k, hk, he⟩
  subst he
  exact ⟨rfl, hk⟩

theorem value_counts_pairwise (cells : List Json) :
    (value_counts cells).Pairwise (tieRel (dedupFS (cells.filter nonNull))) := by
  refine sortByCountDesc_pairwise _ _ ?_
  rw [List.pairwise_map]
  exact pairwise_posIn_of_nodup _ (nodup_dedupFS _)

theorem value_counts_keys_perm (cells : List Json) :
    ((value_counts cells).map Prod.fst).Perm (dedupFS (cells.filter nonNull)) := by
  refine ((sortByCountDesc_perm _).map Prod.fst).trans ?_
  rw [List.map_map]
  have he : (Prod.fst ∘ fun k => (k, cntOf (cells.filter nonNull) k)) = id := rfl
  rw [he, List.map_id]

/-!  ## Lemmas: pipeline characterizations -/

theorem filterMap_comp_bind (f : α → Option β) (g : β → Option γ) :
    ∀ (l : List α), (l.filterMap f).filterMap g = l.filterMap (fun x => (f x).bind g) := by
  intro l
  induction l with
  | nil => rfl
  | cons x t ih =>
    cases hfx : f x with
    | none => simp [List.filterMap_cons, hfx, ih]
    | some b =>
      cases hgb : g b with
      | none => simp [List.filterMap_cons, hfx, hgb, ih]
      | some c => simp [List.filterMap_cons, hfx, hgb, ih]

theorem cowriePipeline_ok {day : String} {lines : List (Option Json)}
    {store : List CowrieRecord} (h : cowriePipeline day lines = Except.ok store) :
    store = lines.filterMap (cowrieNormalize day) := by
  rw [cowriePipeline] at h
  split at h
  · exact absurd h (by simp)
  · injection h with h
    rw [← h, filterMap_comp_bind]
    rfl

theorem cowrieNormalize_isSome (day : String) (l : Option Json) :
    (cowrieNormalize day l).isSome = cowrieValid l := by
  cases l with
  | none => rfl
  | some j =>
    cases j <;>
      simp [cowrieNormalize, cowrieRow, cowrieFinish, cowrieValid, Option.bind]

theorem cowrieNormalize_eq_none {day : String} {l : Option Json}
    (h : cowrieValid l = false) : cowrieNormalize day l = none := by
  have hs := cowrieNormalize_isSome day l
  rw [h] at hs
  exact Option.not_isSome_iff_eq_none.mp (by rw [hs]; exact Bool.false_ne_true)

theorem filterMap_replicate_some {f : α → Option β} {l : α} {r : β}
    (h : f l = some r) : ∀ (k : Nat), (List.replicate k l).filterMap f = List.replicate k r := by
  intro k
  induction k with
  | zero => rfl
  | succ k ih => simp [List.replicate_succ, List.filterMap_cons, h, ih]

theorem cowriePipeline_replicate {day : String} {l : Option Json}
    (h : cowrieValid l = true) (k : Nat) :
    ∃ store2, cowriePipeline day (List.replicate (k + 1) l) = Except.ok store2
      ∧ store2.length = k + 1 := by
  have hs : (cowrieNormalize day l).isSome = true := by
    rw [cowrieNormalize_isSome, h]
  rcases Option.isSome_iff_exists.mp hs with ⟨r, hr⟩
  rcases l with _ | j
  · exact absurd h (by simp [cowrieValid])
  · cases j with
    | obj o =>
      rcases show ∃ row, cowrieRow day (some (Json.obj o)) = some row from ⟨_, rfl⟩
        with ⟨row, hrow⟩
      refine ⟨List.replicate (k + 1) r, ?_, by simp⟩
      rw [cowriePipeline, filterMap_replicate_some hrow]
      have hne : (List.replicate (k + 1) row).isEmpty = false := by
        simp [List.isEmpty, List.replicate_succ]
      rw [hne]
      simp only [if_neg Bool.false_ne_true]
      have hfin : cowrieFinish row = some r := by
        have hn : cowrieNormalize day (some (Json.obj o)) = some r := hr
        rw [cowrieNormalize, hrow] at hn
        exact hn
      rw [filterMap_replicate_some hfin]
    | null => exact absurd h (by simp [cowrieValid])
    | bool b => exact absurd h (by simp [cowrieValid])
    | num n => exact absurd h (by simp [cowrieValid])
    | str s => exact absurd h (by simp [cowrieValid])
    | arr a => exact absurd h (by simp [cowrieValid])

theorem tannerRowE_timestamp {d : Json} {r : TannerRow}
    (h : tannerRowE d = Except.ok r) :
    r.timestamp = jgetCell d "timestamp" := by
  cases d with
  | obj o =>
    rw [tannerRowE] at h
    cases hip : extractIp (Json.obj o) with
    | error e => rw [hip] at h; exact absurd h (by simp [Bind.bind, Except.bind])
    | ok ip =>
      cases hua : extractUA (Json.obj o) with
      | error e =>
        rw [hip, hua] at h; exact absurd h (by simp [Bind.bind, Except.bind])
      | ok ua =>
        cases hdet : extractDetection (Json.obj o) with
        | error e =>
          rw [hip, hua, hdet] at h; exact absurd h (by simp [Bind.bind, Except.bind])
        | ok det =>
          rw [hip, hua, hdet] at h
          simp only [Bind.bind, Except.bind] at h
          injection h with h
          rw [← h]
  | null => exact absurd h (by simp [tannerRowE])
  | bool b => exact absurd h (by simp [tannerRowE])
  | num n => exact absurd h (by simp [tannerRowE])
  | str s => exact absurd h (by simp [tannerRowE])
  | arr a => exact absurd h (by simp [tannerRowE])

theorem tannerBad_normalize {l : Option Json} (h : tannerBad l = true) :
    tannerNormalize l = none := by
  cases l with
  | none => rfl
  | some j =>
    cases j with
    | obj o =>
      rw [tannerNormalize]
      cases hrow : tannerRowE (Json.obj o) with
      | error e => simp [Option.bind, hrow, Except.toOption]
      | ok row =>
        simp only [Option.bind, hrow, Except.toOption]
        rw [tannerFinish, tannerRowE_timestamp hrow]
        rw [tannerBad] at h
        rw [Option.isNone_iff_eq_none.mp h]
        rfl
    | null => rfl
    | bool b => rfl
    | num n => rfl
    | str s => rfl
    | arr a => rfl

theorem tannerPipeline_ok {lines : List (Option Json)}
    {store : List TannerRecord} (h : tannerPipeline lines = Except.ok store) :
    store = lines.filterMap tannerNormalize := by
  rw [tannerPipeline] at h
  split at h
  · exact absurd h (by simp)
  · injection h with h
    rw [← h, filterMap_comp_bind]
    rfl

/-!  ## Lemmas: the sentrypeer source split -/

theorem splitChars_no_sep {sep : Char} :
    ∀ (cs : List Char), cs.contains sep = false → splitChars sep cs = [cs] := by
  intro cs
  induction cs with
  | nil => intro _; rfl
  | cons c rest ih =>
    intro h
    rw [List.contains_cons] at h
    rcases Bool.or_eq_false_iff.mp h with ⟨h1, h2⟩
    have hne : c ≠ sep := by
      intro he
      rw [he] at h1
      simp at h1
    rw [splitChars, ih h2]
    simp [hne]

theorem splitChars_one_sep {sep : Char} :
    ∀ (s t : List Char), s.contains sep = false → t.contains sep = false →
      splitChars sep (s ++ sep :: t) = [s, t] := by
  intro s t hs ht
  induction s with
  | nil =>
    rw [List.nil_append, splitChars, splitChars_no_sep t ht]
    simp
  | cons c cs ih =>
    rw [List.contains_cons] at hs
    rcases Bool.or_eq_false_iff.mp hs with ⟨h1, h2⟩
    have hne : c ≠ sep := by
      intro he
      rw [he] at h1
      simp at h1
    rw [List.cons_append, splitChars, ih h2]
    simp [hne]

theorem row2_no_colon {s : String} (h : s.data.contains ':' = false) :
    row2 (Json.str s) = (some s, none) := by
  rw [row2, splitRow, pySplit, splitChars_no_sep s.data h]
  cases s
  rfl

theorem row2_one_colon {s t : String} (hs : s.data.contains ':' = false)
    (ht : t.data.contains ':' = false) :
    row2 (Json.str (s ++ ":" ++ t)) = (some s, some t) := by
  have hd : (s ++ ":" ++ t).data = s.data ++ ':' :: t.data := by
    rw [String.data_append, String.data_append, List.append_assoc]
    rfl
  rw [row2, splitRow, pySplit, hd, splitChars_one_sep s.data t.data hs ht]
  cases s
  cases t
  rfl

/-!  ## Lemmas: enrichment application -/

theorem applyFoldl_eq {α β : Type} (f : α → β) :
    ∀ (cells : List α) (acc : List β × Nat),
      cells.foldl (fun a c => (a.1 ++ [f c], a.2 + 1)) acc
        = (acc.1 ++ cells.map f, acc.2 + cells.length) := by
  intro cells
  induction cells with
  | nil => intro acc; simp
  | cons c t ih =>
    intro acc
    rw [List.foldl_cons, ih]
    simp only [List.map_cons, List.length_cons, Prod.mk.injEq]
    constructor
    · simp [List.append_assoc]
    · omega

theorem cowrieEnrich_eq (reader : String → Option String) (cells : List Json) :
    cowrieEnrich reader cells = (cells.map (ip_to_country reader), cells.length) := by
  rw [cowrieEnrich, applyFoldl_eq]
  simp

theorem spEnrich_eq (reader : String → Option String) (cells : List (Option String)) :
    spEnrich reader cells = (cells.map (resolve_country reader), cells.length) := by
  rw [spEnrich, applyFoldl_eq]
  simp

/-!  ## Lemmas: resolved-country columns contain no missing cells -/

theorem countries_filter_self (reader : String → Option String) (ips : List Json) :
    (ips.filterMap (resolveIp reader)).filter nonNull
      = ips.filterMap (resolveIp reader) := by
  apply List.filter_eq_self.mpr
  intro c hc
  rcases List.mem_filterMap.mp hc with ⟨ip, _, hres⟩
  cases ip with
  | str s =>
    rw [resolveIp] at hres
    cases hr : reader s with
    | none => rw [hr] at hres; exact absurd hres (by simp)
    | some x =>
      rw [hr] at hres
      injection hres with hres
      rw [← hres]
      rfl
  | null => exact absurd hres (by simp [resolveIp])
  | bool b => exact absurd hres (by simp [resolveIp])
  | num n => exact absurd hres (by simp [resolveIp])
  | arr a => exact absurd hres (by simp [resolveIp])
  | obj o => exact absurd hres (by simp [resolveIp])

/-!  ## Claims -/

/-- C1 counterexample.  The claim fails on the code: (i) with a single
invalid-JSON line the cowrie run aborts (`pd.DataFrame([])` has no
columns, the timestamp access raises `KeyError`) instead of continuing
with the line excluded; (ii) a sentrypeer record with an unparseable
timestamp aborts the run (`pd.to_datetime` without `errors="coerce"`);
(iii) a sentrypeer record missing the timestamp field is retained with a
missing timestamp instead of being excluded. -/
theorem tpot_c1_counterexample :
    cowriePipeline dayA [none] = Except.error ()
    ∧ sentrypeerNormalize spBadTsInput = Except.error ()
    ∧ (sentrypeerNormalize spMissingTsInput).toOption.map
        (fun s => s.map SPRecord.event_timestamp)
      = some [some (tsEncode 2024 1 2 3 4 5), none] := by
  refine ⟨by decide, by decide, by decide⟩

/-- C1 (amended).  Per-line rejection holds for the cowrie and tanner
adapters: a line that is invalid JSON, a non-object, or lacks a coercible
timestamp contributes nothing, and a successful run's record store is
exactly the per-line filterMap of the adapter — but only while at least
one row is appended; with zero appended rows the column access aborts the
run.  The sentrypeer adapter rejects invalid JSON and continues, but an
object with an unparseable timestamp aborts the run, and an object merely
missing the timestamp field is retained with a missing timestamp. -/
theorem tpot_c1_theorem (day : String) (lines : List (Option Json)) (l : Option Json) :
    (cowrieValid l = false → cowrieNormalize day l = none)
    ∧ (tannerBad l = true → tannerNormalize l = none)
    ∧ (∀ store, cowriePipeline day lines = Except.ok store →
        store = lines.filterMap (cowrieNormalize day))
    ∧ (∀ store, tannerPipeline lines = Except.ok store →
        store = lines.filterMap tannerNormalize)
    ∧ sentrypeerLoad lines = lines.filterMap id
    ∧ sentrypeerNormalize spBadTsInput = Except.error ()
    ∧ (sentrypeerNormalize spMissingTsInput).toOption.map
        (fun s => s.map SPRecord.event_timestamp)
      = some [some (tsEncode 2024 1 2 3 4 5), none] := by
  refine ⟨fun h => cowrieNormalize_eq_none h, fun h => tannerBad_normalize h,
    fun store h => cowriePipeline_ok h, fun store h => tannerPipeline_ok h,
    rfl, by decide, by decide⟩

/-- C1 witness: the theorem applied to a concrete invalid line and a
concrete one-line cowrie run. -/
theorem tpot_c1_witness :
    cowrieNormalize dayA (some (Json.str "oops")) = none
    ∧ tannerNormalize (some (Json.str "oops")) = none
    ∧ ([cowrieGoodLine].filterMap (cowrieNormalize dayA)
        = [cowrieGoodLine].filterMap (cowrieNormalize dayA)) :=
  ⟨(tpot_c1_theorem dayA [cowrieGoodLine] (some (Json.str "oops"))).1 (by decide),
   (tpot_c1_theorem dayA [cowrieGoodLine] (some (Json.str "oops"))).2.1 (by decide),
   (tpot_c1_theorem dayA [cowrieGoodLine] (some (Json.str "oops"))).2.2.1
     ([cowrieGoodLine].filterMap (cowrieNormalize dayA)) (by decide)⟩

/-- C2.  For the cowrie parse loop: whenever the run yields a record
store, that store is exactly the order-preserving per-line filterMap of
the adapter (so each line contributes at most one record and nothing is
duplicated or lost), a line contributes a record exactly when it is a JSON
object with a coercible timestamp, and `k + 1` identical valid lines
contribute `k + 1` records (no deduplication).  The degenerate run in
which no line at all yields a row aborts instead and is covered by C1. -/
theorem tpot_c2_theorem (day : String) (lines : List (Option Json))
    (store : List CowrieRecord) (h : cowriePipeline day lines = Except.ok store) :
    store = lines.filterMap (cowrieNormalize day)
    ∧ (∀ l, (cowrieNormalize day l).isSome = cowrieValid l)
    ∧ (∀ l k, cowrieValid l = true →
        ∃ store2, cowriePipeline day (List.replicate (k + 1) l) = Except.ok store2
          ∧ store2.length = k + 1) :=
  ⟨cowriePipeline_ok h, fun l => cowrieNormalize_isSome day l,
   fun _ k hv => cowriePipeline_replicate hv k⟩

/-- C2 witness: a three-fold replicated valid line yields exactly three
records. -/
theorem tpot_c2_witness :
    ∃ store2, cowriePipeline dayA (List.replicate 3 cowrieGoodLine) = Except.ok store2
      ∧ store2.length = 3 :=
  (tpot_c2_theorem dayA [cowrieGoodLine]
      ([cowrieGoodLine].filterMap (cowrieNormalize dayA)) (by decide)).2.2
    cowrieGoodLine 2 (by decide)

/-- C3.  `value_counts().head(n)` over the key column of a record list:
the table has at most `n` rows; each row pairs a key with its exact
occurrence count over the non-missing key column; rows are ordered by
count descending with ties in first-seen key order (`tieRel` over the
first-appearance key list); and before truncation the table's keys are
exactly the distinct non-missing keys.  `topN` is a function of the input
sequence, so a fixed input order determines the output table. -/
theorem tpot_c3_theorem {ρ : Type} (records : List ρ) (key : ρ → Json) (n : Nat) :
    (topN (records.map key) n).length ≤ n
    ∧ (∀ p ∈ topN (records.map key) n,
        p.2 = cntOf ((records.map key).filter nonNull) p.1
          ∧ p.1 ∈ dedupFS ((records.map key).filter nonNull))
    ∧ (topN (records.map key) n).Pairwise
        (tieRel (dedupFS ((records.map key).filter nonNull)))
    ∧ ((value_counts (records.map key)).map Prod.fst).Perm
        (dedupFS ((records.map key).filter nonNull)) := by
  refine ⟨?_, ?_, ?_, value_counts_keys_perm _⟩
  · rw [topN, List.length_take]
    exact min_le_left _ _
  · intro p hp
    exact mem_value_counts (List.take_subset n _ hp)
  · exact (value_counts_pairwise _).sublist (List.take_sublist n _)

/-- C3 witness: the theorem applied to a concrete key column with a
duplicated key. -/
theorem tpot_c3_witness :
    (Json.str "a", 2).2
        = cntOf (([Json.str "a", Json.str "b", Json.str "a"].map
            (fun x => x)).filter nonNull) (Json.str "a", 2).1
      ∧ (Json.str "a", 2).1
        ∈ dedupFS (([Json.str "a", Json.str "b", Json.str "a"].map
            (fun x => x)).filter nonNull) :=
  (tpot_c3_theorem [Json.str "a", Json.str "b", Json.str "a"] (fun x => x) 2).2.1
    (Json.str "a", 2) (by decide)

/-- C4.  `groupby(bucketFn).size()`: buckets are emitted in strictly
ascending order, every emitted pair carries the exact occurrence count of
its bucket (hence at least one — no zero-filled gaps), and the emitted
bucket set is exactly the set of bucket values occurring in the
records. -/
theorem tpot_c4_theorem {ρ : Type} (records : List ρ) (bucketFn : ρ → Nat) :
    ((bucketedCount (records.map bucketFn)).map Prod.fst).Pairwise (· < ·)
    ∧ (∀ p ∈ bucketedCount (records.map bucketFn),
        p.2 = cntOf (records.map bucketFn) p.1 ∧ 1 ≤ p.2)
    ∧ (∀ b, b ∈ (bucketedCount (records.map bucketFn)).map Prod.fst
        ↔ b ∈ records.map bucketFn) := by
  have hkeys : (bucketedCount (records.map bucketFn)).map Prod.fst
      = sortAsc (dedupFS (records.map bucketFn)) := by
    rw [bucketedCount, List.map_map]
    have hc : (Prod.fst ∘ fun b => (b, cntOf (records.map bucketFn) b)) = id := rfl
    rw [hc, List.map_id]
  have hnd : (sortAsc (dedupFS (records.map bucketFn))).Nodup :=
    (sortAsc_perm _).nodup_iff.mpr (nodup_dedupFS _)
  refine ⟨?_, ?_, ?_⟩
  · rw [hkeys]
    exact ((sortAsc_pairwise _).and hnd).imp
      (fun hab => lt_of_le_of_ne hab.1 hab.2)
  · intro p hp
    rcases List.mem_map.mp hp with ⟨b, hb, he⟩
    have hbb : b ∈ records.map bucketFn :=
      (mem_dedupFS b _).mp ((sortAsc_perm _).mem_iff.mp hb)
    subst he
    exact ⟨rfl, (cntOf_pos_iff _ _).mpr hbb⟩
  · intro b
    rw [hkeys, (sortAsc_perm _).mem_iff, mem_dedupFS]

/-- C4 witness: the theorem applied to a concrete bucket column. -/
theorem tpot_c4_witness :
    (5, 2).2 = cntOf ([5, 3, 5].map (fun x => x)) (5, 2).1 ∧ 1 ≤ (5, 2).2 :=
  (tpot_c4_theorem [5, 3, 5] (fun x => x)).2.1 (5, 2) (by decide)

/-- C5 counterexample.  Two rows with the same address cost two reader
invocations — the scripts apply the lookup helper to every row with no
cache — so a run does not perform one database access per distinct
address. -/
theorem tpot_c5_counterexample :
    (cowrieEnrich readerDE [Json.str "9.9.9.9", Json.str "9.9.9.9"]).2 = 2
    ∧ (dedupFS [Json.str "9.9.9.9", Json.str "9.9.9.9"]).length = 1
    ∧ (cowrieEnrich readerDE [Json.str "9.9.9.9", Json.str "9.9.9.9"]).1
        = ["DE", "DE"]
    ∧ (2 : Nat) ≠ 1 := by
  refine ⟨by decide, by decide, by decide, by decide⟩

/-- C5 (amended).  Resolution is deterministic — the enriched column is
the pointwise image of a pure per-address function, so equal addresses
always receive identical labels — but there is no GeoCache: each record
triggers one reader invocation, so a run performs one lookup per row, not
one per distinct address. -/
theorem tpot_c5_theorem (reader : String → Option String) (cells : List Json)
    (spCells : List (Option String)) :
    cowrieEnrich reader cells = (cells.map (ip_to_country reader), cells.length)
    ∧ spEnrich reader spCells = (spCells.map (resolve_country reader), spCells.length) :=
  ⟨cowrieEnrich_eq reader cells, spEnrich_eq reader spCells⟩

/-- C6 counterexample.  cowrie's sentinel is `"UNK"`, not `"unknown"`;
and with the database file absent the sentrypeer run aborts at reader
construction instead of degrading to a no-op. -/
theorem tpot_c6_counterexample :
    ip_to_country readerFail (Json.str "10.0.0.1") = "UNK"
    ∧ "UNK" ≠ "unknown"
    ∧ sentrypeerGeoStage false readerFail [some "1.2.3.4"] = Except.error () := by
  refine ⟨by decide, by decide, by decide⟩

/-- C6 (amended).  The per-call lookup helpers are total and substitute a
sentinel on any lookup failure — `"UNK"` in cowrie, `"unknown"` in
sentrypeer.  When the database file is absent, cowrie skips the GeoIP
block entirely (no country column) and the run continues, while
sentrypeer raises at `Reader` construction and the run aborts. -/
theorem tpot_c6_theorem (reader : String → Option String) (s : String)
    (cells : List Json) (spCells : List (Option String)) :
    (reader s = none → ip_to_country reader (Json.str s) = "UNK")
    ∧ ip_to_country reader Json.null = "UNK"
    ∧ (reader s = none → resolve_country reader (some s) = "unknown")
    ∧ resolve_country reader none = "unknown"
    ∧ cowrieGeoStage false reader cells = none
    ∧ sentrypeerGeoStage false reader spCells = Except.error () := by
  refine ⟨fun h => ?_, rfl, fun h => ?_, rfl, rfl, rfl⟩
  · rw [ip_to_country, h]
    rfl
  · rw [resolve_country, h]
    rfl

/-- C6 witness: the theorem applied to the always-failing reader. -/
theorem tpot_c6_witness :
    ip_to_country readerFail (Json.str "192.168.0.1") = "UNK"
    ∧ resolve_country readerFail (some "192.168.0.1") = "unknown" :=
  ⟨(tpot_c6_theorem readerFail "192.168.0.1" [] []).1 rfl,
   (tpot_c6_theorem readerFail "192.168.0.1" [] []).2.2.1 rfl⟩

/-- C7 counterexample.  `source_ip` is split at every colon, not the
last: a two-colon address makes the expanded frame three columns wide and
the two-column assignment raises, aborting the run; and in a width-two
batch a no-colon address yields a missing (`None`) port — not the
sentinel `"unknown"` — while the record is retained. -/
theorem tpot_c7_counterexample :
    sentrypeerNormalize spTwoColonInput = Except.error ()
    ∧ (sentrypeerNormalize spNoColonInput).toOption.map
        (fun s => s.map SPRecord.src_port)
      = some [some "5060", none]
    ∧ (none : Option String) ≠ some "unknown" := by
  refine ⟨by decide, by decide, by decide⟩

/-- C7 (amended).  The split succeeds exactly when the widest split of
the batch has two parts (otherwise the two-column assignment raises); in
a surviving batch an address with one colon splits at that colon into
address and port, and an address with no colon keeps the whole string as
the address with a missing (`None`) port — the record is retained, but no
`"unknown"` port sentinel is produced. -/
theorem tpot_c7_theorem (cells : List Json) (s t : String) :
    (spWidth cells = 2 → spSplitStage cells = Except.ok (cells.map row2))
    ∧ (spWidth cells ≠ 2 → spSplitStage cells = Except.error ())
    ∧ (s.data.contains ':' = false → row2 (Json.str s) = (some s, none))
    ∧ (s.data.contains ':' = false → t.data.contains ':' = false →
        row2 (Json.str (s ++ ":" ++ t)) = (some s, some t)) := by
  refine ⟨fun h => ?_, fun h => ?_, fun h => row2_no_colon h,
    fun hs ht => row2_one_colon hs ht⟩
  · rw [spSplitStage, if_pos h]
  · rw [spSplitStage, if_neg h]

/-- C7 witness: the theorem applied to the concrete mixed batch. -/
theorem tpot_c7_witness :
    row2 (Json.str "8.8.8.8") = (some "8.8.8.8", none)
    ∧ row2 (Json.str ("1.2.3.4" ++ ":" ++ "5060")) = (some "1.2.3.4", some "5060") :=
  ⟨(tpot_c7_theorem [] "8.8.8.8" "x").2.2.1 (by decide),
   (tpot_c7_theorem [] "1.2.3.4" "5060").2.2.2 (by decide) (by decide)⟩

/-- C8 counterexample.  A record with no `peer` level is retained, but
its ip leaf is `None` (null) — not the `"N/A"` sentinel the claim
asserts for every nested leaf. -/
theorem tpot_c8_counterexample :
    (tannerPipeline [tanFlatLine]).toOption.map (fun s => s.map TannerRecord.ip)
      = some [Json.null]
    ∧ Json.null ≠ Json.str "N/A" := by
  refine ⟨by decide, by decide⟩

/-- C8 (amended).  On a JSON object in which the `peer`, `headers` and
`response_msg` levels are all absent, the tanner adapter retains the
record: the user-agent and detection leaves default to `"N/A"`, but the
`peer→ip` leaf defaults to `None` (null) — and the detection chain starts
at `response_msg`, one level above the `response→message→detection→name`
path the claim names. -/
theorem tpot_c8_theorem (o : JObj)
    (hp : JObj.find o "peer" = none) (hh : JObj.find o "headers" = none)
    (hr : JObj.find o "response_msg" = none) :
    tannerRowE (Json.obj o) = Except.ok ⟨jgetCell (Json.obj o) "timestamp",
      Json.null, jgetCell (Json.obj o) "method", jgetCell (Json.obj o) "path",
      jgetCell (Json.obj o) "status", Json.str "N/A", Json.str "N/A"⟩ := by
  have hip : extractIp (Json.obj o) = Except.ok Json.null := by
    simp [extractIp, pyGet, hp, Json.mkObj, JObj.ofList, JObj.find,
      Bind.bind, Except.bind]
  have hua : extractUA (Json.obj o) = Except.ok (Json.str "N/A") := by
    simp [extractUA, pyGet, hh, Json.mkObj, JObj.ofList, JObj.find,
      Bind.bind, Except.bind]
  have hdet : extractDetection (Json.obj o) = Except.ok (Json.str "N/A") := by
    simp [extractDetection, pyGet, hr, Json.mkObj, JObj.ofList, JObj.find,
      Bind.bind, Except.bind]
  simp [tannerRowE, hip, hua, hdet, Bind.bind, Except.bind]

/-- C8 witness: the theorem applied to a record carrying only a
timestamp. -/
theorem tpot_c8_witness :
    tannerRowE (Json.obj (JObj.ofList [("timestamp", Json.str "t")]))
      = Except.ok ⟨jgetCell (Json.obj (JObj.ofList [("timestamp", Json.str "t")])) "timestamp",
        Json.null,
        jgetCell (Json.obj (JObj.ofList [("timestamp", Json.str "t")])) "method",
        jgetCell (Json.obj (JObj.ofList [("timestamp", Json.str "t")])) "path",
        jgetCell (Json.obj (JObj.ofList [("timestamp", Json.str "t")])) "status",
        Json.str "N/A", Json.str "N/A"⟩ :=
  tpot_c8_theorem (JObj.ofList [("timestamp", Json.str "t")])
    (by decide) (by decide) (by decide)

/-- C9 counterexample.  A run whose only line parses but carries an
unparseable timestamp leaves zero records after normalization; the tanner
summary then raises (`idxmax` over an empty `value_counts`), so the run
fails rather than producing empty aggregate tables. -/
theorem tpot_c9_counterexample : tannerRun [tanBadTsLine] = Except.error () := by
  decide

/-- C9 (amended).  The aggregation primitives themselves are total on the
empty record store — `value_counts`, `topN`, `bucketedCount` and
`nunique` all yield empty/zero results without raising — but the tanner
summary's `idxmax` raises on the empty store, so the tanner run fails
when zero records survive normalization. -/
theorem tpot_c9_theorem (n : Nat) :
    value_counts [] = []
    ∧ topN [] n = []
    ∧ bucketedCount [] = []
    ∧ nunique [] = 0
    ∧ tannerSummary [] = Except.error ()
    ∧ tannerRun [tanBadTsLine] = Except.error () := by
  refine ⟨rfl, ?_, rfl, rfl, rfl, by decide⟩
  rw [topN]
  have hv : value_counts [] = [] := rfl
  rw [hv]
  exact List.take_nil

/-- C10.  The tanner country aggregate resolves
`df["ip"].dropna().unique()` — a duplicate-free list of the distinct
non-missing addresses — so each table row's count is the number of
distinct addresses resolving to that country (bounded by the number of
distinct addresses), not the number of events. -/
theorem tpot_c10_theorem (reader : String → Option String) (cells : List Json) :
    (dedupFS (cells.filter nonNull)).Nodup
    ∧ (∀ p ∈ tannerCountries reader cells,
        p.2 = ((dedupFS (cells.filter nonNull)).filter
            (fun ip => decide (resolveIp reader ip = some p.1))).length
        ∧ p.2 ≤ (dedupFS (cells.filter nonNull)).length) := by
  refine ⟨nodup_dedupFS _, ?_⟩
  intro p hp
  have hvc : p ∈ value_counts
      ((dedupFS (cells.filter nonNull)).filterMap (resolveIp reader)) :=
    List.take_subset 10 _ hp
  have hm := mem_value_counts hvc
  rw [countries_filter_self] at hm
  refine ⟨?_, ?_⟩
  · rw [hm.1, cntOf_filterMap]
  · rw [hm.1, cntOf_filterMap]
    exact List.length_filter_le _ _

/-- C10 witness: three events from two distinct addresses of the same
country count as 2, the number of distinct addresses. -/
theorem tpot_c10_witness :
    (Json.str "FR", 2).2 = ((dedupFS (cellsFR.filter nonNull)).filter
        (fun ip => decide (resolveIp readerFR ip = some (Json.str "FR", 2).1))).length
    ∧ (Json.str "FR", 2).2 ≤ (dedupFS (cellsFR.filter nonNull)).length :=
  (tpot_c10_theorem readerFR cellsFR).2 (Json.str "FR", 2) (by decide)
